import Mathlib

/-!
Shallow embedding of the DNS-CPP `Context` configuration surface
(src/include/dnscpp/context.h) together with a model of the query
scheduling and retry engine described by the design document. The
inline setters and query-forwarding overloads are translated directly
from the header; components whose bodies are not part of the source
tree (the Operation state machine, the Scheduler, the search-path
resolver) are modelled from the specification text and marked so in
their doc comments.
-/

namespace DnsCpp

/-- Record type code (ns_type in the source); the embedding only needs it
as an opaque value. -/
abbrev NsType := Nat

/-- Query flag bits (the Bits class in the source), treated as opaque. -/
abbrev Bits := Nat

/-- A nameserver address (the Ip class in the source), treated as opaque. -/
abbrev Ip := Nat

/-- State of a DNS::Context / Core object: the configuration members that
the header's inline member functions read and write. Doubles are embedded
as rationals. -/
structure Context where
  _nameservers : List Ip
  _searchpaths : List String
  _timeout : ℚ
  _interval : ℚ
  _attempts : Nat
  _capacity : Nat
  _maxcalls : Nat
  _ndots : Nat
  _sockets : Nat
  _bits : Bits
  _rotate : Bool
deriving DecidableEq

/-- Context::clear — empty the nameserver list. -/
def Context.clear (c : Context) : Context :=
  { c with _nameservers := [] }

/-- Context::nameserver — append a nameserver to the list. -/
def Context.nameserver (c : Context) (ip : Ip) : Context :=
  { c with _nameservers := c._nameservers ++ [ip] }

/-- Context::timeout — store the timeout, clamped with std::max(timeout, 0.1). -/
def Context.timeout (c : Context) (t : ℚ) : Context :=
  { c with _timeout := max t (1/10) }

/-- Context::interval — store the interval, clamped with std::max(interval, 0.1). -/
def Context.interval (c : Context) (i : ℚ) : Context :=
  { c with _interval := max i (1/10) }

/-- Context::attempts — store the max number of attempts (no clamping in the
source: the argument is assigned to the member unchanged). -/
def Context.attempts (c : Context) (n : Nat) : Context :=
  { c with _attempts := n }

/-- Context::maxcalls — store the max number of userspace calls per iteration
(no clamping in the source). -/
def Context.maxcalls (c : Context) (n : Nat) : Context :=
  { c with _maxcalls := n }

/-- Context::ndots — store the ndots setting (no clamping in the source). -/
def Context.ndots (c : Context) (n : Nat) : Context :=
  { c with _ndots := n }

/-- Context::bits — store the default query bits. -/
def Context.bits (c : Context) (b : Bits) : Context :=
  { c with _bits := b }

/-- Context::rotate — store the rotate setting. -/
def Context.rotate (c : Context) (r : Bool) : Context :=
  { c with _rotate := r }

/-- Modelled from the spec: Context::capacity, whose body is not in the
source tree; the spec records only that it stores the number of operations
to run at the same time. -/
def Context.capacity (c : Context) (n : Nat) : Context :=
  { c with _capacity := n }

/-- Modelled from the spec: the socket count stored by Context::sockets,
whose real body forwards to the per-family socket pools (not in the source
tree). -/
def Context.sockets (c : Context) (n : Nat) : Context :=
  { c with _sockets := n }

/-- A concrete context value used for evaluating the embedding on
concrete inputs. -/
def initialContext : Context :=
  { _nameservers := []
    _searchpaths := []
    _timeout := 5
    _interval := 2
    _attempts := 5
    _capacity := 32
    _maxcalls := 64
    _ndots := 1
    _sockets := 1
    _bits := 0
    _rotate := false }

end DnsCpp

namespace DnsCpp

/-- Outcome delivered to a result sink: the success call or the failure
call of the handler / callback pair. -/
inductive Outcome where
  | success : Outcome
  | failure : Outcome
deriving DecidableEq

/-- Number of label separators (dots) in a domain name, compared against
the ndots setting by the search-path resolver. -/
def countDots (s : String) : Nat :=
  (s.toList.filter (fun ch => ch == '.')).length

/-- Modelled from the spec: the candidate-name sequence produced by the
search-path resolver (Context::searchable is only declared in the header).
A name with at least ndots separators is tried as-is first; a name with
fewer separators is tried with every configured search suffix appended,
in configured order, with the bare name last. -/
def candidates (searchpaths : List String) (nd : Nat) (name : String) : List String :=
  if nd ≤ countDots name then
    name :: searchpaths.map (fun suffix => name ++ "." ++ suffix)
  else
    searchpaths.map (fun suffix => name ++ "." ++ suffix) ++ [name]

/-- Modelled from the spec: the configuration captured by one Operation
(the real Operation class is only forward-declared in the header).
`env ci ni a` is the response oracle: the conclusive outcome, if any, that
arrives for the a-th send towards nameserver ni for candidate name ci. -/
structure OpConfig where
  candidates : List String
  nameservers : List Ip
  attempts : Nat
  env : Nat → Nat → Nat → Option Outcome

/-- Modelled from the spec: retransmissions of one candidate/nameserver
pair, up to the fuel many attempts; returns the number of sends together
with the conclusive outcome, if one arrived. -/
def runNs (env : Nat → Nat → Nat → Option Outcome) (maxA ci ni : Nat) :
    Nat → Nat × Option Outcome
  | 0 => (0, none)
  | Nat.succ k =>
    match env ci ni (maxA - Nat.succ k) with
    | some o => (1, some o)
    | none =>
      let r := runNs env maxA ci ni k
      (r.1 + 1, r.2)

/-- Modelled from the spec: exhaust the attempt budget against each
nameserver in turn (fuel counts the remaining nameservers), resetting the
attempt counter per nameserver, until a conclusive outcome arrives. -/
def runServers (env : Nat → Nat → Nat → Option Outcome) (maxA ci ni : Nat) :
    Nat → Nat × Option Outcome
  | 0 => (0, none)
  | Nat.succ k =>
    let a := runNs env maxA ci ni maxA
    match a.2 with
    | some o => (a.1, some o)
    | none =>
      let r := runServers env maxA ci (ni + 1) k
      (a.1 + r.1, r.2)

/-- Modelled from the spec: exhaust all nameservers per candidate name,
then advance to the next candidate (fuel counts the remaining candidates). -/
def runCands (env : Nat → Nat → Nat → Option Outcome) (maxA nsCount ci : Nat) :
    Nat → Nat × Option Outcome
  | 0 => (0, none)
  | Nat.succ k =>
    let a := runServers env maxA ci 0 nsCount
    match a.2 with
    | some o => (a.1, some o)
    | none =>
      let r := runCands env maxA nsCount (ci + 1) k
      (a.1 + r.1, r.2)

/-- Modelled from the spec: an Operation's whole lifetime — the number of
distinct sends performed, and the single outcome reached (exhaustion of
all attempts, nameservers and candidates yields a failure outcome). -/
def runOperation (cfg : OpConfig) : Nat × Outcome :=
  let r := runCands cfg.env cfg.attempts cfg.nameservers.length 0 cfg.candidates.length
  (r.1, r.2.getD Outcome.failure)

/-- Modelled from the spec: the sequence of result-sink invocations an
Operation performs. A cancelled Operation is destroyed without invoking
the sink; otherwise the single final outcome is delivered once. -/
def deliveries (cfg : OpConfig) (cancelled : Bool) : List Outcome :=
  if cancelled then [] else [(runOperation cfg).2]

/-- The Operation of the attempts scenario: attempts = 3, one nameserver,
one candidate name, and no send is ever answered. -/
def unansweredCfg : OpConfig :=
  { candidates := ["host"]
    nameservers := [1]
    attempts := 3
    env := fun _ _ _ => none }

end DnsCpp

namespace DnsCpp

/-- Modelled from the spec: the scheduler's admission-control state — the
running pool bounded by the capacity, and the FIFO queue of waiting
operation ids. -/
structure SchedState where
  capacity : Nat
  running : List Nat
  queued : List Nat
deriving DecidableEq

/-- Modelled from the spec: submitting a query — run immediately if a slot
is free, otherwise append to the FIFO queue. -/
def SchedState.submit (s : SchedState) (id : Nat) : SchedState :=
  if s.running.length < s.capacity then { s with running := s.running ++ [id] }
  else { s with queued := s.queued ++ [id] }

/-- Modelled from the spec: a running Operation reaching Done — it leaves
the running pool and the head of the FIFO queue, if any, is promoted into
the freed slot. -/
def SchedState.complete (s : SchedState) (id : Nat) : SchedState :=
  if id ∈ s.running then
    match s.queued with
    | [] => { s with running := s.running.erase id }
    | q :: rest => { s with running := s.running.erase id ++ [q], queued := rest }
  else s

/-- An admission-control event: a query submission or a completion. -/
inductive SchedEvent where
  | submit : Nat → SchedEvent
  | complete : Nat → SchedEvent

/-- One admission-control step. -/
def SchedState.step (s : SchedState) : SchedEvent → SchedState
  | SchedEvent.submit id => s.submit id
  | SchedEvent.complete id => s.complete id

/-- Run a sequence of admission-control events from the empty state with
the given capacity. -/
def runSched (cap : Nat) (events : List SchedEvent) : SchedState :=
  events.foldl SchedState.step { capacity := cap, running := [], queued := [] }

/-- Modelled from the spec: one scheduling pass over the pending result
queue — deliver at most maxcalls completed operations in FIFO order and
carry the rest over to the next pass. -/
def deliverPass (maxc : Nat) (pending : List Nat) : List Nat × List Nat :=
  (pending.take maxc, pending.drop maxc)

/-- Modelled from the spec: query construction (the bodies of the
Context::query overloads are only declared in the header). Validity of
the domain syntax and support of the record type are supplied as
predicates; on invalid input, or with an empty nameserver set, no
Operation is created (none) and no sink event happens (empty list);
otherwise the candidate-name sequence is produced via the search-path
resolver. -/
def queryModel (validDomain : String → Bool) (supported : NsType → Bool)
    (c : Context) (domain : String) (t : NsType) :
    Option (List String) × List Outcome :=
  if validDomain domain && supported t && !c._nameservers.isEmpty then
    (some (candidates c._searchpaths c._ndots domain), [])
  else
    (none, [])

/-- Modelled from the spec: a query's whole lifetime seen from the result
sink — construction followed, when an Operation was created, by running
it to completion under the given response oracle. -/
def queryAndRun (validDomain : String → Bool) (supported : NsType → Bool)
    (env : Nat → Nat → Nat → Option Outcome)
    (c : Context) (domain : String) (t : NsType) : Option (Nat × Outcome) :=
  match (queryModel validDomain supported c domain t).1 with
  | none => none
  | some cands =>
    some (runOperation
      { candidates := cands
        nameservers := c._nameservers
        attempts := c._attempts
        env := env })

end DnsCpp

namespace DnsCpp

/-- Modelled from the spec: the per-Operation snapshot of the settings
that an Operation captures at creation time. -/
structure Settings where
  timeout : ℚ
  interval : ℚ
  attempts : Nat
  capacity : Nat
  sockets : Nat
  bits : Bits
deriving DecidableEq

/-- The settings snapshot taken from a context. -/
def Context.snapshot (c : Context) : Settings :=
  { timeout := c._timeout
    interval := c._interval
    attempts := c._attempts
    capacity := c._capacity
    sockets := c._sockets
    bits := c._bits }

/-- Modelled from the spec: an in-flight Operation record — the name it
resolves plus the settings captured at its creation. -/
structure OperationRec where
  name : String
  settings : Settings
deriving DecidableEq

/-- Modelled from the spec: Operation creation captures the settings of
the context at creation time. -/
def createOp (c : Context) (name : String) : OperationRec :=
  { name := name, settings := c.snapshot }

/-- Modelled from the spec: the engine state — the current configuration
plus the in-flight Operations. -/
structure Engine where
  ctx : Context
  inflight : List OperationRec

/-- A configuration mutation performed through a Context setter. -/
inductive ConfigChange where
  | timeout : ℚ → ConfigChange
  | interval : ℚ → ConfigChange
  | attempts : Nat → ConfigChange
  | capacity : Nat → ConfigChange
  | sockets : Nat → ConfigChange
  | bits : Bits → ConfigChange
  | rotate : Bool → ConfigChange

/-- Apply a configuration mutation to a context via the corresponding
setter. -/
def applyChange (c : Context) : ConfigChange → Context
  | ConfigChange.timeout t => c.timeout t
  | ConfigChange.interval i => c.interval i
  | ConfigChange.attempts n => c.attempts n
  | ConfigChange.capacity n => c.capacity n
  | ConfigChange.sockets n => c.sockets n
  | ConfigChange.bits b => c.bits b
  | ConfigChange.rotate r => c.rotate r

/-- Reconfigure the engine: only the context changes. -/
def Engine.reconfigure (e : Engine) (ch : ConfigChange) : Engine :=
  { e with ctx := applyChange e.ctx ch }

/-- Submit a new query: an Operation capturing the current settings joins
the in-flight pool. -/
def Engine.submitOp (e : Engine) (name : String) : Engine :=
  { e with inflight := e.inflight ++ [createOp e.ctx name] }

end DnsCpp

namespace DnsCpp

/-- A result-sink handler object (DNS::Handler), treated as opaque. -/
abbrev Handler := Nat

/-- A success callback value, treated as opaque. -/
abbrev SuccessCallback := Nat

/-- A failure callback value, treated as opaque. -/
abbrev FailureCallback := Nat

/-- An operation handle returned by query (the Operation pointer),
treated as opaque; none embeds nullptr. -/
abbrev OpHandle := Option Nat

/-- The four query implementations whose bodies are outside the header:
the explicit-bits overloads that the header's inline convenience
overloads forward to. -/
structure QueryImpls where
  domainHandler : String → NsType → Bits → Handler → OpHandle
  ipHandler : Ip → Bits → Handler → OpHandle
  domainCallbacks : String → NsType → Bits → SuccessCallback → FailureCallback → OpHandle
  ipCallbacks : Ip → Bits → SuccessCallback → FailureCallback → OpHandle

/-- Context::query(domain, type, handler) — the inline overload from the
header: return query(domain, type, _bits, handler). -/
def Context.queryDomainHandler (impl : QueryImpls) (c : Context)
    (domain : String) (t : NsType) (h : Handler) : OpHandle :=
  impl.domainHandler domain t c._bits h

/-- Context::query(ip, handler) — the inline overload from the header:
return query(ip, _bits, handler). -/
def Context.queryIpHandler (impl : QueryImpls) (c : Context)
    (ip : Ip) (h : Handler) : OpHandle :=
  impl.ipHandler ip c._bits h

/-- Context::query(domain, type, success, failure) — the inline overload
from the header: return query(domain, type, _bits, success, failure). -/
def Context.queryDomainCallbacks (impl : QueryImpls) (c : Context)
    (domain : String) (t : NsType) (ok : SuccessCallback) (ko : FailureCallback) : OpHandle :=
  impl.domainCallbacks domain t c._bits ok ko

/-- Context::query(ip, success, failure) — the inline overload from the
header: return query(ip, _bits, success, failure). -/
def Context.queryIpCallbacks (impl : QueryImpls) (c : Context)
    (ip : Ip) (ok : SuccessCallback) (ko : FailureCallback) : OpHandle :=
  impl.ipCallbacks ip c._bits ok ko

end DnsCpp

namespace DnsCpp

lemma runNs_sends_le (env : Nat → Nat → Nat → Option Outcome) (maxA ci ni : Nat) :
    ∀ fuel, (runNs env maxA ci ni fuel).1 ≤ fuel := by
  intro fuel
  induction fuel with
  | zero => simp [runNs]
  | succ k ih =>
    cases h : env ci ni (maxA - (k + 1)) with
    | some o => simp [runNs, h]
    | none =>
      simp [runNs, h]
      omega

lemma runServers_sends_le (env : Nat → Nat → Nat → Option Outcome) (maxA ci : Nat) :
    ∀ fuel ni, (runServers env maxA ci ni fuel).1 ≤ fuel * maxA := by
  intro fuel
  induction fuel with
  | zero => intro ni; simp [runServers]
  | succ k ih =>
    intro ni
    have ha := runNs_sends_le env maxA ci ni maxA
    cases h : (runNs env maxA ci ni maxA).2 with
    | some o =>
      simp [runServers, h]
      calc (runNs env maxA ci ni maxA).1 ≤ maxA := ha
        _ ≤ k * maxA + maxA := Nat.le_add_left maxA (k * maxA)
        _ = (k + 1) * maxA := (Nat.succ_mul k maxA).symm
    | none =>
      simp [runServers, h]
      have hr := ih (ni + 1)
      calc (runNs env maxA ci ni maxA).1 + (runServers env maxA ci (ni + 1) k).1
          ≤ maxA + k * maxA := Nat.add_le_add ha hr
        _ = (k + 1) * maxA := by rw [Nat.succ_mul, Nat.add_comm]

lemma runCands_sends_le (env : Nat → Nat → Nat → Option Outcome) (maxA nsCount : Nat) :
    ∀ fuel ci, (runCands env maxA nsCount ci fuel).1 ≤ fuel * (nsCount * maxA) := by
  intro fuel
  induction fuel with
  | zero => intro ci; simp [runCands]
  | succ k ih =>
    intro ci
    have ha := runServers_sends_le env maxA ci nsCount 0
    cases h : (runServers env maxA ci 0 nsCount).2 with
    | some o =>
      simp [runCands, h]
      calc (runServers env maxA ci 0 nsCount).1 ≤ nsCount * maxA := ha
        _ ≤ k * (nsCount * maxA) + nsCount * maxA :=
          Nat.le_add_left (nsCount * maxA) (k * (nsCount * maxA))
        _ = (k + 1) * (nsCount * maxA) := (Nat.succ_mul k (nsCount * maxA)).symm
    | none =>
      simp [runCands, h]
      have hr := ih (ci + 1)
      calc (runServers env maxA ci 0 nsCount).1 + (runCands env maxA nsCount (ci + 1) k).1
          ≤ nsCount * maxA + k * (nsCount * maxA) := Nat.add_le_add ha hr
        _ = (k + 1) * (nsCount * maxA) := by rw [Nat.succ_mul, Nat.add_comm]

lemma sched_step_capacity (s : SchedState) (e : SchedEvent) :
    (s.step e).capacity = s.capacity := by
  cases e with
  | submit id =>
    simp only [SchedState.step, SchedState.submit]
    split <;> rfl
  | complete id =>
    simp only [SchedState.step, SchedState.complete]
    split
    · split <;> rfl
    · rfl

lemma sched_step_inv (s : SchedState) (e : SchedEvent)
    (h : s.running.length ≤ s.capacity) :
    (s.step e).running.length ≤ s.capacity := by
  cases e with
  | submit id =>
    simp only [SchedState.step, SchedState.submit]
    split
    · next hlt => simpa using hlt
    · simpa using h
  | complete id =>
    simp only [SchedState.step, SchedState.complete]
    split
    · next hmem =>
      have hpos : 0 < s.running.length := List.length_pos_of_mem hmem
      have herase := List.length_erase_of_mem hmem
      split
      · simp only [herase]
        omega
      · simp only [List.length_append, List.length_cons, List.length_nil, herase]
        omega
    · exact h

lemma runSched_inv :
    ∀ (events : List SchedEvent) (s : SchedState),
      s.running.length ≤ s.capacity →
      (events.foldl SchedState.step s).running.length ≤ s.capacity := by
  intro events
  induction events with
  | nil => exact fun s h => h
  | cons e rest ih =>
    intro s h
    rw [List.foldl_cons]
    have h2 : (s.step e).running.length ≤ (s.step e).capacity := by
      rw [sched_step_capacity]
      exact sched_step_inv s e h
    have h3 := ih (s.step e) h2
    rwa [sched_step_capacity] at h3

end DnsCpp

namespace DnsCpp

/-- C1: for every Operation, exactly one of {success, failure} is
delivered to the result sink, exactly once — never both, never zero
times — unless the Operation was cancelled before delivery. -/
theorem claim_C1_exactly_once_delivery :
    ∀ (cfg : OpConfig) (cancelled : Bool),
      (deliveries cfg cancelled).length = (if cancelled then 0 else 1) ∧
      (deliveries cfg false).count Outcome.success
        + (deliveries cfg false).count Outcome.failure = 1 := by
  intro cfg cancelled
  constructor
  · cases cancelled <;> simp [deliveries]
  · cases h : (runOperation cfg).2 <;> simp [deliveries, h]

/-- C2: a query with invalid input (malformed domain, unsupported record
type, or an empty nameserver set) returns no Operation synchronously and
the result sink is never invoked over the whole lifetime. -/
theorem claim_C2_invalid_input_null :
    ∀ (validDomain : String → Bool) (supported : NsType → Bool)
      (env : Nat → Nat → Nat → Option Outcome)
      (c : Context) (domain : String) (t : NsType),
      (validDomain domain = false ∨ supported t = false ∨ c._nameservers = []) →
      queryModel validDomain supported c domain t = (none, []) ∧
      queryAndRun validDomain supported env c domain t = none := by
  intro v sup env c d t h
  have hcond : (v d && sup t && !c._nameservers.isEmpty) = false := by
    rcases h with h | h | h <;> simp [h]
  constructor
  · simp [queryModel, hcond]
  · simp [queryAndRun, queryModel, hcond]

/-- Witness for C2 at a concrete invalid input: a domain rejected by the
validity predicate, with the default (empty-nameserver) context. -/
theorem claim_C2_invalid_input_null_witness :
    ((fun _ : String => false) "bad" = false ∨ (fun _ : NsType => true) 1 = false ∨
      initialContext._nameservers = []) ∧
    queryModel (fun _ => false) (fun _ => true) initialContext "bad" 1 = (none, []) ∧
    queryAndRun (fun _ => false) (fun _ => true) (fun _ _ _ => none)
      initialContext "bad" 1 = none :=
  ⟨Or.inl rfl,
   (claim_C2_invalid_input_null (fun _ => false) (fun _ => true) (fun _ _ _ => none)
      initialContext "bad" 1 (Or.inl rfl)).1,
   (claim_C2_invalid_input_null (fun _ => false) (fun _ => true) (fun _ _ _ => none)
      initialContext "bad" 1 (Or.inl rfl)).2⟩

/-- C3: a name with fewer than ndots separators gets every search suffix
appended in configured order with the bare name last; a name with at
least ndots separators is tried bare first; with ndots = 1, search path
["example.com"] and name "host" the sequence is
["host.example.com", "host"]. -/
theorem claim_C3_search_candidate_order :
    ∀ (sp : List String) (nd : Nat) (name : String),
      (countDots name < nd →
        candidates sp nd name = sp.map (fun suffix => name ++ "." ++ suffix) ++ [name]) ∧
      (nd ≤ countDots name →
        candidates sp nd name = name :: sp.map (fun suffix => name ++ "." ++ suffix)) ∧
      candidates ["example.com"] 1 "host" = ["host.example.com", "host"] := by
  intro sp nd name
  refine ⟨?_, ?_, by decide⟩
  · intro h
    simp [candidates, Nat.not_le.mpr h]
  · intro h
    simp [candidates, h]

/-- Witness for C3: the under-qualified name "host" (no dots) and the
qualified name "a.b" (one dot) at ndots = 1. -/
theorem claim_C3_search_candidate_order_witness :
    countDots "host" < 1 ∧
    candidates ["example.com"] 1 "host"
      = (["example.com"].map (fun suffix => "host" ++ "." ++ suffix)) ++ ["host"] ∧
    1 ≤ countDots "a.b" ∧
    candidates ["example.com"] 1 "a.b"
      = "a.b" :: ["example.com"].map (fun suffix => "a.b" ++ "." ++ suffix) :=
  ⟨by decide,
   (claim_C3_search_candidate_order ["example.com"] 1 "host").1 (by decide),
   by decide,
   (claim_C3_search_candidate_order ["example.com"] 1 "a.b").2.1 (by decide)⟩

/-- C4: over every event sequence, the number of simultaneously running
Operations never exceeds the capacity; a completion promotes exactly the
head of the FIFO queue; with capacity 1 and two back-to-back submissions,
the second stays queued until the first completes. -/
theorem claim_C4_capacity_admission :
    ∀ (cap : Nat) (events : List SchedEvent),
      (runSched cap events).running.length ≤ cap ∧
      (∀ (s : SchedState) (id q : Nat) (rest : List Nat),
        s.queued = q :: rest → id ∈ s.running →
        (s.complete id).running = s.running.erase id ++ [q] ∧
        (s.complete id).queued = rest) ∧
      runSched 1 [SchedEvent.submit 7, SchedEvent.submit 8]
        = { capacity := 1, running := [7], queued := [8] } ∧
      (runSched 1 [SchedEvent.submit 7, SchedEvent.submit 8]).complete 7
        = { capacity := 1, running := [8], queued := [] } := by
  intro cap events
  refine ⟨runSched_inv events _ (by simp), ?_, by decide, by decide⟩
  intro s id q rest hq hmem
  constructor <;> simp [SchedState.complete, hmem, hq]

/-- Witness for C4: the empty event sequence at capacity 1, and a
completion from the concrete state with running = [7], queued = [8]. -/
theorem claim_C4_capacity_admission_witness :
    (runSched 1 []).running.length ≤ 1 ∧
    (({ capacity := 1, running := [7], queued := [8] } : SchedState).complete 7).running
      = [7].erase 7 ++ [8] ∧
    (({ capacity := 1, running := [7], queued := [8] } : SchedState).complete 7).queued
      = [] :=
  ⟨(claim_C4_capacity_admission 1 []).1,
   ((claim_C4_capacity_admission 1 []).2.1
      { capacity := 1, running := [7], queued := [8] } 7 8 [] rfl (by decide)).1,
   ((claim_C4_capacity_admission 1 []).2.1
      { capacity := 1, running := [7], queued := [8] } 7 8 [] rfl (by decide)).2⟩

/-- C5: one scheduling pass delivers at most maxcalls results; delivered
plus carried-over results reconstitute the pending queue (FIFO order
preserved); with maxcalls = 2 and three completions, two are delivered in
the first pass and the third in the next. -/
theorem claim_C5_bounded_delivery :
    ∀ (maxc : Nat) (pending : List Nat),
      (deliverPass maxc pending).1.length ≤ maxc ∧
      (deliverPass maxc pending).1 ++ (deliverPass maxc pending).2 = pending ∧
      deliverPass 2 [10, 11, 12] = ([10, 11], [12]) ∧
      deliverPass 2 (deliverPass 2 [10, 11, 12]).2 = ([12], []) := by
  intro maxc pending
  refine ⟨?_, List.take_append_drop maxc pending, by decide, by decide⟩
  simp [deliverPass]

/-- C6: the total number of sends of an Operation never exceeds
attempts × nameservers × candidates; with attempts = 3, one nameserver
and no answers, exactly 3 requests go out and a failure is delivered. -/
theorem claim_C6_send_attempt_bound :
    ∀ cfg : OpConfig,
      (runOperation cfg).1
        ≤ cfg.attempts * cfg.nameservers.length * cfg.candidates.length ∧
      runOperation unansweredCfg = (3, Outcome.failure) ∧
      deliveries unansweredCfg false = [Outcome.failure] := by
  intro cfg
  refine ⟨?_, by decide, by decide⟩
  have h := runCands_sends_le cfg.env cfg.attempts cfg.nameservers.length
    cfg.candidates.length 0
  calc (runOperation cfg).1
      = (runCands cfg.env cfg.attempts cfg.nameservers.length 0 cfg.candidates.length).1 :=
        rfl
    _ ≤ cfg.candidates.length * (cfg.nameservers.length * cfg.attempts) := h
    _ = cfg.attempts * cfg.nameservers.length * cfg.candidates.length := by ring

/-- C7: the timeout setter stores max(t, 0.1) and the interval setter
stores max(i, 0.1); both stored values are always at least 0.1 seconds. -/
theorem claim_C7_timeout_interval_clamp :
    ∀ (c : Context) (t i : ℚ),
      (c.timeout t)._timeout = max t (1/10) ∧
      (c.interval i)._interval = max i (1/10) ∧
      (1/10 : ℚ) ≤ (c.timeout t)._timeout ∧
      (1/10 : ℚ) ≤ (c.interval i)._interval := by
  intro c t i
  exact ⟨rfl, rfl, le_max_right t (1/10), le_max_right i (1/10)⟩

/-- C8 counterexample: the attempts setter performs no clamping, so the
setter call attempts(0) stores zero — the numeric setting is not
strictly positive afterwards, refuting the claim as stated. -/
theorem claim_C8_zero_attempts_counterexample :
    (initialContext.attempts 0)._attempts = 0 ∧
    ¬ (0 < (initialContext.attempts 0)._attempts) := by
  constructor
  · rfl
  · simp [initialContext, Context.attempts]

/-- C8 amended: only the timeout and interval setters clamp (to at least
0.1, hence positive); the attempts, maxcalls and ndots setters store
their argument unchanged, so zero can be stored through them. -/
theorem claim_C8_amended_clamping :
    ∀ (c : Context) (t i : ℚ) (n m k : Nat),
      0 < (c.timeout t)._timeout ∧
      0 < (c.interval i)._interval ∧
      (c.attempts n)._attempts = n ∧
      (c.maxcalls m)._maxcalls = m ∧
      (c.ndots k)._ndots = k := by
  intro c t i n m k
  refine ⟨?_, ?_, rfl, rfl, rfl⟩
  · exact lt_of_lt_of_le (by norm_num) (le_max_right t (1/10))
  · exact lt_of_lt_of_le (by norm_num) (le_max_right i (1/10))

/-- C9: a configuration mutation leaves every in-flight Operation (and
the settings snapshot it captured at creation) untouched; an Operation
created afterwards captures the mutated settings. -/
theorem claim_C9_mutation_frame :
    ∀ (e : Engine) (ch : ConfigChange) (name : String),
      (e.reconfigure ch).inflight = e.inflight ∧
      ((e.reconfigure ch).submitOp name).inflight
        = e.inflight ++ [createOp (applyChange e.ctx ch) name] ∧
      (e.submitOp name).inflight
        = e.inflight ++ [{ name := name, settings := e.ctx.snapshot }] := by
  intro e ch name
  exact ⟨rfl, rfl, rfl⟩

/-- C10: each convenience query overload that omits the bits argument
equals the corresponding explicit-bits implementation applied to the
context's current default bits, for all four overload shapes. -/
theorem claim_C10_default_bits_forwarding :
    ∀ (impl : QueryImpls) (c : Context) (domain : String) (t : NsType)
      (h : Handler) (ip : Ip) (ok : SuccessCallback) (ko : FailureCallback),
      c.queryDomainHandler impl domain t h = impl.domainHandler domain t c._bits h ∧
      c.queryIpHandler impl ip h = impl.ipHandler ip c._bits h ∧
      c.queryDomainCallbacks impl domain t ok ko
        = impl.domainCallbacks domain t c._bits ok ko ∧
      c.queryIpCallbacks impl ip ok ko = impl.ipCallbacks ip c._bits ok ko := by
  intro impl c domain t h ip ok ko
  exact ⟨rfl, rfl, rfl, rfl⟩

end DnsCpp



